import Mathlib

/-!
Verification development for the vscode-livecodescript extension
(src/src/features/livecodebuilder/symbolProvider.ts).

The file shallowly embeds the three cores of the source file:
  * the LineDecoder class (write / end),
  * the document symbol scanner (provideDocumentSymbols of
    livecodebuilderConfigDocumentSymbolProvider),
  * the validation pipeline pieces of LivecodescriptValidationProvider
    (MatchExpression matching, processLine, the stdout collection of
    doValidate, and the pauseValidation update of loadConfiguration).

Text is modelled as lists of characters; JavaScript values that may be
undefined are modelled as Option.
-/

set_option maxRecDepth 8000

namespace Livecodescript

/-- Text, modelled as a list of characters. -/
abbrev Str := List Char

/-- Convenience: the character list of a string literal. -/
def str (s : String) : Str := s.data

/-! ## LineDecoder (symbolProvider.ts lines 333-377) -/

/-- Character codes 13 (CR) and 10 (LF), as compared by charCodeAt checks
in LineDecoder.write. -/
def isNewline (c : Char) : Bool := c.toNat == 13 || c.toNat == 10

/-- The scanning loop body of LineDecoder.write. The accumulator cur is
the slice value[start..idx) of the source. A CR/LF met while cur is empty
is skipped (this realizes both while-loops of the source that skip runs of
terminators: the leading run at line 353 and the run after each pushed
line at line 362); a CR/LF met while cur is nonempty pushes cur as a
complete line (line 360). A character that is not a terminator extends
cur. Whatever cur remains at the end is the new remaining value. -/
def scanStep : Str → Str → List Str × Str
  | cur, [] => ([], cur)
  | cur, c :: cs =>
    if isNewline c then
      if cur.isEmpty then scanStep [] cs
      else
        let p := scanStep [] cs
        (cur :: p.1, p.2)
    else
      scanStep (cur ++ [c]) cs

/-- LineDecoder.write: value is the previous remaining text followed by
the decoded chunk; the scan returns the complete lines and stores the
trailing unterminated text as the new remaining value (the empty list
models the null remaining of the source). -/
def LineDecoder.write (remaining chunk : Str) : List Str × Str :=
  scanStep [] (remaining ++ chunk)

/-- LineDecoder.end: returns the remaining text; none models null. -/
def LineDecoder.endRemaining (remaining : Str) : Option Str :=
  if remaining.isEmpty then none else some remaining

/-- Feed a sequence of chunks through one LineDecoder instance, in order,
collecting all complete lines and the final remaining value. -/
def writeAll : Str → List Str → List Str × Str
  | rem, [] => ([], rem)
  | rem, ch :: chs =>
    let p := LineDecoder.write rem ch
    let q := writeAll p.2 chs
    (p.1 ++ q.1, q.2)

/-- Lines produced by write over all chunks, paired with the result of the
final end() call. -/
def decodeStream (chunks : List Str) : List Str × Option Str :=
  let p := writeAll [] chunks
  (p.1, LineDecoder.endRemaining p.2)

/-! ## Symbol scanner (symbolProvider.ts lines 4-310) -/

/-- JavaScript whitespace (the subset relevant to source lines) for the
regex class backslash-s used by the split at line 47 and the patterns. -/
def isWS (c : Char) : Bool :=
  c == ' ' || c == '\t' || c == '\n' || c == '\r' || c == '\x0b' || c == '\x0c'

/-- ASCII word character, the regex class backslash-w. -/
def isWordChar (c : Char) : Bool := c.isAlpha || c.isDigit || c == '_'

/-- line.text.replace(re, " $1 ") with re matching the characters = and
double quote (line 40 and 45): each such character gets a space on both
sides. -/
def spaceSpecials (s : Str) : Str :=
  s.flatMap (fun c => if c == '=' || c == '"' then [' ', c, ' '] else [c])

/-- lineText.split on whitespace runs followed by the filter dropping
empty strings (lines 47-53). -/
def tokenize (s : Str) : List Str :=
  (s.splitOnP isWS).filter (fun t => !t.isEmpty)

/-- The literal p matches at the start of t. -/
def startsWithTok (p t : Str) : Bool := t.take p.length == p

/-- Drop the leading whitespace run (the pattern prefix backslash-s star). -/
def dropWS (s : Str) : Str := s.dropWhile isWS

/-- The head character exists and is whitespace (one obligatory character
of a backslash-s plus; the rest of the run is consumed greedily by the
caller). -/
def headIsWS : Str → Bool
  | [] => false
  | c :: _ => isWS c

/-- The head character exists and is a word character (one obligatory
character of a backslash-w plus). -/
def headIsWord : Str → Bool
  | [] => false
  | c :: _ => isWordChar c

/-- Pattern of line 58: leading whitespace, the word handler, then at
least one whitespace character. -/
def matchHandlerOpen (s : Str) : Bool :=
  startsWithTok (str "handler") (dropWS s) && headIsWS ((dropWS s).drop 7)

/-- Shared shape of the two end-handler patterns: the word end, at least
one whitespace character, the word handler (the trailing whitespace-star
of the patterns always matches). -/
def endHandlerShape (t : Str) : Bool :=
  startsWithTok (str "end") t && headIsWS (t.drop 3) &&
    startsWithTok (str "handler") ((t.drop 3).dropWhile isWS)

/-- Pattern of line 67: leading whitespace allowed before end handler. -/
def matchEndHandler (s : Str) : Bool := endHandlerShape (dropWS s)

/-- Pattern of line 83: end handler anchored directly at the line start. -/
def matchEndHandlerNoWS (s : Str) : Bool := endHandlerShape s

/-- Pattern of line 79: leading whitespace, private, whitespace, handler,
whitespace, at least one word character. -/
def matchPrivateOpen (s : Str) : Bool :=
  startsWithTok (str "private") (dropWS s) && headIsWS ((dropWS s).drop 7) &&
    (startsWithTok (str "handler") (((dropWS s).drop 7).dropWhile isWS) &&
     headIsWS (((((dropWS s).drop 7).dropWhile isWS)).drop 7) &&
     headIsWord ((((((dropWS s).drop 7).dropWhile isWS)).drop 7).dropWhile isWS))

/-- The word variable followed by whitespace and a word character, used by
both alternatives of the pattern of line 251. -/
def variableTail (r : Str) : Bool :=
  startsWithTok (str "variable") r && headIsWS (r.drop 8) &&
    headIsWord ((r.drop 8).dropWhile isWS)

/-- Pattern of line 251: either private (with an optional, possibly empty
whitespace run) before variable, or variable directly after the leading
whitespace. -/
def matchVariableDecl (s : Str) : Bool :=
  (startsWithTok (str "private") (dropWS s) &&
     variableTail (((dropWS s).drop 7).dropWhile isWS))
  || variableTail (dropWS s)

/-- vscode.SymbolKind values used by the source (lines 30-38). -/
inductive SymbolKind where
  | Field
  | Method
  | Function
  | Property
  | String
  | Variable
deriving DecidableEq, Repr

def symbolkind_marker : SymbolKind := SymbolKind.Field
def symbolkind_private_handler : SymbolKind := SymbolKind.Method
def symbolkind_ftn : SymbolKind := SymbolKind.Function
def symbolkind_public_handler : SymbolKind := SymbolKind.Method
def symbolkind_getprop : SymbolKind := SymbolKind.Property
def symbolkind_setprop : SymbolKind := SymbolKind.Property
def symbolkind_blockcomment : SymbolKind := SymbolKind.String
def symbolkind_comment : SymbolKind := SymbolKind.String
def symbolkind_variable : SymbolKind := SymbolKind.Variable

/-- vscode.DocumentSymbol: name and detail are Option because the source
passes possibly-undefined indexed accesses such as tokens[1] to the
constructor. Ranges are (startLine, endLine) pairs; the source only ever
builds ranges from whole line ranges. -/
structure DocumentSymbol where
  name : Option Str
  detail : Option Str
  kind : SymbolKind
  range : Nat × Nat
  selectionRange : Nat × Nat
  children : List DocumentSymbol

/-- The mutable state of the scan loop of provideDocumentSymbols:
the top-level symbols array, the current handler_Symbol object, and the
two flags (inside_blockcomment is initialized false and never set). -/
structure ScanState where
  symbols : List DocumentSymbol
  handlerSym : DocumentSymbol
  insideHandler : Bool
  insideBlockcomment : Bool

/-- The token-extraction loop of the variables branch (lines 252-277),
returning the extracted names in order. The index and the previous token
mirror index1 and tokens[index1 - 1]; the quote flag is toggled before
the skip checks, exactly as in the source. -/
def extractVarNamesGo : List Str → Nat → Bool → Option Str → List Str
  | [], _, _, _ => []
  | t :: rest, i, inQuotes, prev =>
    let inQuotes := if t == str "\"" then !inQuotes else inQuotes
    if inQuotes || i == 0 || t == str "=" || t == str "\"" ||
        prev == some (str "=") || t == str "," then
      extractVarNamesGo rest (i + 1) inQuotes (some t)
    else if t == str "variable" then
      extractVarNamesGo rest (i + 1) inQuotes (some t)
    else if t == str "as" then
      []
    else
      t :: extractVarNamesGo rest (i + 1) inQuotes (some t)

def extractVarNames (tokens : List Str) : List Str :=
  extractVarNamesGo tokens 0 false none

/-- Lines 58-75: the public handler open branch and its end branch. -/
def handlerBranch1 (st : ScanState) (i : Nat) (lineText : Str)
    (tokens : List Str) : ScanState :=
  if matchHandlerOpen lineText then
    { st with
      handlerSym :=
        { name := tokens[1]?, detail := tokens[2]?,
          kind := symbolkind_public_handler,
          range := (i, i), selectionRange := (i, i), children := [] },
      insideHandler := true }
  else if matchEndHandler lineText then
    if st.insideHandler then
      let h := { st.handlerSym with
                 range := (st.handlerSym.range.1, i),
                 selectionRange := (st.handlerSym.range.1, i) }
      { st with
        handlerSym := h
        symbols := st.symbols ++ [h]
        insideHandler := false }
    else st
  else st

/-- Lines 79-91: the private handler open branch and its end branch. -/
def handlerBranch2 (st : ScanState) (i : Nat) (lineText : Str)
    (tokens : List Str) : ScanState :=
  if matchPrivateOpen lineText then
    { st with
      handlerSym :=
        { name := tokens[2]?, detail := tokens[3]?,
          kind := symbolkind_private_handler,
          range := (i, i), selectionRange := (i, i), children := [] },
      insideHandler := true }
  else if matchEndHandlerNoWS lineText then
    if st.insideHandler then
      let h := { st.handlerSym with
                 range := (st.handlerSym.range.1, i),
                 selectionRange := (st.handlerSym.range.1, i) }
      { st with
        handlerSym := h
        symbols := st.symbols ++ [h]
        insideHandler := false }
    else st
  else st

/-- Lines 250-279: the variables branch. Each extracted name becomes a
Variable symbol with detail tokens[0]; it is attached to the open handler
children when inside a handler, otherwise appended at the top level. -/
def variableBranch (st : ScanState) (i : Nat) (lineText : Str)
    (tokens : List Str) : ScanState :=
  if matchVariableDecl lineText then
    let names := extractVarNames tokens
    let vars := names.map (fun n =>
      ({ name := some n, detail := tokens[0]?, kind := symbolkind_variable,
         range := (i, i), selectionRange := (i, i), children := [] }
        : DocumentSymbol))
    if st.insideBlockcomment then st
    else if st.insideHandler then
      { st with handlerSym :=
          { st.handlerSym with children := st.handlerSym.children ++ vars } }
    else
      { st with symbols := st.symbols ++ vars }
  else st

/-- The body of the for loop over document lines (lines 43-305): compute
lineText and tokens, then run the three independent branch groups. -/
def scanLineStep (st : ScanState) (i : Nat) (text : Str) : ScanState :=
  let lineText := spaceSpecials text
  let tokens := tokenize lineText
  variableBranch
    (handlerBranch2 (handlerBranch1 st i lineText tokens) i lineText tokens)
    i lineText tokens

/-- The for loop over lines, threading the line index. -/
def scanLoop (st : ScanState) (i : Nat) : List Str → ScanState
  | [] => st
  | l :: ls => scanLoop (scanLineStep st i l) (i + 1) ls

/-- The initial scan state (lines 16-26): empty symbols array, a dummy
start handler symbol built from the range of line index 1, flags false. -/
def initState : ScanState :=
  { symbols := []
    handlerSym :=
      { name := some (str "start"), detail := some (str "start"),
        kind := SymbolKind.Method, range := (1, 1), selectionRange := (1, 1),
        children := [] }
    insideHandler := false
    insideBlockcomment := false }

/-- The loop of provideDocumentSymbols over the document lines. -/
def scanCore (docLines : List Str) : List DocumentSymbol :=
  (scanLoop initState 0 docLines).symbols

/-- vscode TextDocument.lineAt: throws Illegal value for line when the
index is out of [0, lineCount). -/
def lineAt (doc : List Str) (i : Nat) : Except Str Str :=
  if i < doc.length then Except.ok (doc.getD i []) else
    Except.error (str "Illegal value for line")

/-- provideDocumentSymbols (lines 12-309): the promise executor evaluates
document.lineAt(1) before the loop (line 18); a throw there rejects the
promise, modelled as Except.error. Otherwise the loop runs over all lines
and the promise resolves with the symbols array. -/
def provideDocumentSymbols (doc : List Str) : Except Str (List DocumentSymbol) :=
  match lineAt doc 1 with
  | Except.error e => Except.error e
  | Except.ok _ => Except.ok (scanCore doc)

/-- Names of the resolved top-level symbols (empty on rejection). -/
def topNames (doc : List Str) : List (Option Str) :=
  match provideDocumentSymbols doc with
  | Except.ok ss => ss.map (fun s => s.name)
  | Except.error _ => []

/-- Kinds of the resolved top-level symbols (empty on rejection). -/
def topKinds (doc : List Str) : List SymbolKind :=
  match provideDocumentSymbols doc with
  | Except.ok ss => ss.map (fun s => s.kind)
  | Except.error _ => []

/-- A line that opens a handler scope through either branch. -/
def opensHandlerLine (l : Str) : Bool :=
  matchHandlerOpen (spaceSpecials l) || matchPrivateOpen (spaceSpecials l)

/-- A line that matches the permissive end-handler pattern of line 67
(the anchored pattern of line 83 only matches a subset of these lines). -/
def endsHandlerLine (l : Str) : Bool :=
  matchEndHandler (spaceSpecials l)

/-! ## Validation provider (symbolProvider.ts lines 398-587) -/

/-- JavaScript regex dot: any character except a line terminator. -/
def isLineTerm (c : Char) : Bool :=
  c == '\n' || c == '\r' || c.toNat == 0x2028 || c.toNat == 0x2029

/-- All characters of the slice can be matched by the regex dot. -/
def dotOk (l : Str) : Bool := l.all (fun c => !isLineTerm c)

def isDigitChar (c : Char) : Bool := c.isDigit

/-- The lazy part of MatchExpression (line 400) after the literal in
separator: the lazy group (. star lazy) tries the shortest filename first,
then requires the literal on-line separator and at least one digit; the
digits group is greedy and nothing follows it in the pattern. -/
def lazyPart (r : Str) : Option (Str × Str) :=
  (List.range (r.length + 1)).findSome? (fun k =>
    let file := r.take k
    if dotOk file && startsWithTok (str " on line ") (r.drop k) then
      let digits := ((r.drop k).drop 9).takeWhile isDigitChar
      if digits.isEmpty then none else some (file, digits)
    else none)

/-- The greedy part of MatchExpression after the error keyword: the greedy
group (. star) tries the longest message first, then requires the literal
in separator and a successful lazy part. -/
def greedyPart (t2 : Str) : Option (Str × Str × Str) :=
  ((List.range (t2.length + 1)).reverse).findSome? (fun j =>
    let msg := t2.take j
    if dotOk msg && startsWithTok (str " in ") (t2.drop j) then
      match lazyPart ((t2.drop j).drop 4) with
      | some (file, digits) => some (msg, file, digits)
      | none => none
    else none)

/-- Attempt of MatchExpression at one position: the alternation tries
Parse error then Fatal error, each followed by the literal colon-space. -/
def matchFrom (t : Str) : Option (Str × Str × Str) :=
  if startsWithTok (str "Parse error: ") t then greedyPart (t.drop 13)
  else if startsWithTok (str "Fatal error: ") t then greedyPart (t.drop 13)
  else none

/-- line.match(MatchExpression): the regex is unanchored, so the engine
scans candidate start positions left to right and returns the groups of
the leftmost successful position. -/
def matchExpressionSearch (s : Str) : Option (Str × Str × Str) :=
  (List.range (s.length + 1)).findSome? (fun i => matchFrom (s.drop i))

/-- parseInt on a nonempty all-digit string. -/
def parseDigits (ds : Str) : Nat :=
  ds.foldl (fun acc c => acc * 10 + (c.toNat - 48)) 0

/-- vscode.Diagnostic as built by processLine: the range starts at
(parseInt(line) - 1, 0); the line is an Int because the subtraction is
JavaScript arithmetic. The range end column Number.MAX_VALUE (through end
of line) carries no information and is not modelled. -/
structure Diagnostic where
  startLine : Int
  startChar : Nat
  message : Str
deriving DecidableEq, Repr

/-- processLine (lines 506-517): a line yields one diagnostic exactly when
MatchExpression matches somewhere in it; matches[1] is the message and
matches[3] the line number. -/
def processLine (line : Str) : Option Diagnostic :=
  match matchExpressionSearch line with
  | some (message, _file, digits) =>
    some { startLine := (parseDigits digits : Int) - 1, startChar := 0,
           message := message }
  | none => none

/-- The stdout handling of doValidate (lines 543-553): every data chunk is
written to the run's LineDecoder and each complete line processed; on
stream end the remaining partial line, when truthy, is processed too. The
result is the diagnostics array set for the document. -/
def collectDiagnostics (chunks : List Str) : List Diagnostic :=
  let p := writeAll [] chunks
  p.1.filterMap processLine ++
    (match LineDecoder.endRemaining p.2 with
     | some l => (processLine l).toList
     | none => [])

/-- Modelled from the spec: a line matching the diagnostic shape exactly,
with nothing before the error keyword and nothing after the line number
(section 6: only lines matching this exact shape yield diagnostics). This
definition follows the words of the spec and is compared against the
unanchored matcher of the source. -/
def specExactShapeMatch (s : Str) : Bool :=
  (startsWithTok (str "Parse error: ") s || startsWithTok (str "Fatal error: ") s) &&
    (let t2 := s.drop 13
     (List.range (t2.length + 1)).any (fun j =>
       startsWithTok (str " in ") (t2.drop j) &&
         (List.range (t2.length + 1)).any (fun k =>
           let r := (t2.drop j).drop 4
           startsWithTok (str " on line ") (r.drop k) &&
             (let d := (r.drop k).drop 9
              !d.isEmpty && d.all isDigitChar))))

/-- The pauseValidation-relevant state of LivecodescriptValidationProvider. -/
structure ProviderState where
  pauseValidation : Bool
  executable : Option Str
deriving DecidableEq, Repr

/-- The pauseValidation update of loadConfiguration (lines 442-452): the
old executable is read from the previous config, the new config is
loaded, and a set pauseValidation flag is cleared exactly when the old
and new executables differ (JavaScript strict equality on the possibly
undefined strings). -/
def loadConfigurationPause (st : ProviderState) (newExecutable : Option Str) :
    ProviderState :=
  { pauseValidation :=
      if st.pauseValidation then st.executable == newExecutable
      else st.pauseValidation
    executable := newExecutable }



/-! ## Concrete claim theorems -/

/-- Claim C1 (counterexample): for the document text of the single logical
line variable a, b, c (vscode lines are the text before and after the
trailing newline), the three top-level Variable symbols produced keep the
comma attached to the first two names, so the names are not a, b, c. -/
theorem variable_commas_counterexample :
    topNames [str "variable a, b, c", str ""] =
      [some (str "a,"), some (str "b,"), some (str "c")] ∧
    topNames [str "variable a, b, c", str ""] ≠
      [some (str "a"), some (str "b"), some (str "c")] := by
  constructor
  · rfl
  · decide

/-- Claim C1 (amended): the scanner returns exactly three top-level
Variable symbols named a-comma, b-comma and c, in that order: the
tokenizer only isolates the characters = and double quote, so a comma
stays attached to the preceding name, and only a token that is exactly a
comma is skipped. -/
theorem variable_commas_amended :
    topNames [str "variable a, b, c", str ""] =
      [some (str "a,"), some (str "b,"), some (str "c")] ∧
    topKinds [str "variable a, b, c", str ""] =
      [SymbolKind.Variable, SymbolKind.Variable, SymbolKind.Variable] := by
  exact ⟨rfl, rfl⟩

/-- Claim C2 (code bug, evaluation at the failing input): for the empty
document (a single empty vscode line, lineCount 1), provideDocumentSymbols
evaluates document.lineAt(1) before the loop, which throws, so the promise
rejects instead of resolving. -/
theorem empty_document_scan_rejects :
    provideDocumentSymbols [str ""] =
      Except.error (str "Illegal value for line") := by
  rfl

/-- Claim C4: when the checker stdout is exactly the line
Parse error: bad token in test.lc on line 5, the resulting diagnostic set
has exactly one entry, its message is exactly bad token, and its range
starts at 0-based line 4, column 0. -/
theorem parse_error_line_yields_single_diagnostic :
    collectDiagnostics [str "Parse error: bad token in test.lc on line 5"] =
      [{ startLine := 4, startChar := 0, message := str "bad token" }] := by
  rfl

/-- Claim C5 (code bug, evaluation at the failing input): a handler line
with no name token is scanned with the unguarded accesses tokens[1] and
tokens[2], so the produced symbol carries the undefined value (none) as
its name instead of a guarded fallback; the host DocumentSymbol
constructor rejects a falsy name, so the scan throws. -/
theorem missing_handler_name_unguarded :
    provideDocumentSymbols [str "handler ", str "end handler"] =
      Except.ok [{ name := none, detail := none, kind := SymbolKind.Method,
                   range := (0, 1), selectionRange := (0, 1), children := [] }] := by
  rfl

/-- Claim C6 (counterexample): the two scans of the claim produce symbols
whose kinds are the same value, SymbolKind.Method, not two distinct
values. -/
theorem handler_kinds_equal_counterexample :
    topKinds [str "private handler bar", str "end handler"] =
      topKinds [str "handler foo", str "end handler"] ∧
    topKinds [str "private handler bar", str "end handler"] =
      [SymbolKind.Method] := by
  exact ⟨rfl, rfl⟩

/-- Claim C6 (amended): the private prefix selects the constant
symbolkind_private_handler and its absence symbolkind_public_handler, but
the source defines both constants as vscode.SymbolKind.Method, so both
scans yield a symbol of the same kind Method. -/
theorem handler_kinds_both_method :
    symbolkind_private_handler = symbolkind_public_handler ∧
    topKinds [str "private handler bar", str "end handler"] =
      [symbolkind_private_handler] ∧
    topKinds [str "handler foo", str "end handler"] =
      [symbolkind_public_handler] := by
  exact ⟨rfl, rfl, rfl⟩

/-- Claim C7: scanning handler foo / variable x / end handler yields
exactly one top-level symbol named foo whose range spans lines 0 to 2
inclusive, with exactly one child: a Variable symbol named x. -/
theorem handler_with_variable_child :
    provideDocumentSymbols [str "handler foo", str "variable x", str "end handler"] =
      Except.ok
        [{ name := some (str "foo"), detail := none, kind := SymbolKind.Method,
           range := (0, 2), selectionRange := (0, 2),
           children := [{ name := some (str "x"), detail := some (str "variable"),
                          kind := SymbolKind.Variable, range := (1, 1),
                          selectionRange := (1, 1), children := [] }] }] := by
  rfl

/-- Claim C9 (counterexample): a settings reload that leaves the
configured executable unchanged does not clear the pause: the provider
stays paused. -/
theorem reload_same_executable_stays_paused :
    (loadConfigurationPause
        { pauseValidation := true, executable := some (str "/usr/bin/livecode") }
        (some (str "/usr/bin/livecode"))).pauseValidation = true := by
  rfl



/-! ## LineDecoder lemmas -/

theorem scanStep_nil (cur : Str) : scanStep cur [] = ([], cur) := rfl

theorem scanStep_nl_nil (c : Char) (cs : Str) (h : isNewline c = true) :
    scanStep [] (c :: cs) = scanStep [] cs := by
  simp [scanStep, h]

theorem scanStep_nl_cons (d : Char) (ds : Str) (c : Char) (cs : Str)
    (h : isNewline c = true) :
    scanStep (d :: ds) (c :: cs) =
      ((d :: ds) :: (scanStep [] cs).1, (scanStep [] cs).2) := by
  simp [scanStep, h]

theorem scanStep_other (cur : Str) (c : Char) (cs : Str) (h : isNewline c = false) :
    scanStep cur (c :: cs) = scanStep (cur ++ [c]) cs := by
  simp [scanStep, h]

/-- Newline-free text extends the current accumulator verbatim. -/
theorem scanStep_append_nlfree (u : Str) (hu : ∀ c ∈ u, isNewline c = false) :
    ∀ cur cs, scanStep cur (u ++ cs) = scanStep (cur ++ u) cs := by
  induction u with
  | nil => intro cur cs; simp
  | cons a u ih =>
    intro cur cs
    have ha : isNewline a = false := hu a (by simp)
    have hu2 : ∀ c ∈ u, isNewline c = false := fun c hc => hu c (by simp [hc])
    rw [List.cons_append, scanStep_other _ _ _ ha, ih hu2]
    simp

/-- Splitting the scanned text at any point: the lines of the whole text
are the lines of the first part followed by the lines of a fresh scan of
the first remaining value glued to the second part, and the remaining
values agree. -/
theorem scanStep_split (cs : Str) : ∀ cur b, (∀ c ∈ cur, isNewline c = false) →
    scanStep cur (cs ++ b) =
      ((scanStep cur cs).1 ++ (scanStep [] ((scanStep cur cs).2 ++ b)).1,
       (scanStep [] ((scanStep cur cs).2 ++ b)).2) := by
  induction cs with
  | nil =>
    intro cur b hcur
    have h1 := scanStep_append_nlfree cur hcur [] b
    simp at h1
    rw [scanStep_nil]
    simpa using h1.symm
  | cons c cs ih =>
    intro cur b hcur
    cases hnl : isNewline c with
    | true =>
      cases cur with
      | nil =>
        rw [List.cons_append, scanStep_nl_nil _ _ hnl, scanStep_nl_nil _ _ hnl]
        exact ih [] b (by simp)
      | cons d ds =>
        rw [List.cons_append, scanStep_nl_cons _ _ _ _ hnl,
            scanStep_nl_cons _ _ _ _ hnl]
        rw [ih [] b (by simp)]
        simp
    | false =>
      rw [List.cons_append, scanStep_other _ _ _ hnl, scanStep_other _ _ _ hnl]
      refine ih (cur ++ [c]) b ?_
      intro x hx
      rcases List.mem_append.mp hx with hx | hx
      · exact hcur x hx
      · simp at hx; subst hx; exact hnl

/-- The remaining value never contains a terminator. -/
theorem scanStep_snd_nlfree (cs : Str) : ∀ cur, (∀ c ∈ cur, isNewline c = false) →
    ∀ c ∈ (scanStep cur cs).2, isNewline c = false := by
  induction cs with
  | nil => intro cur h; simpa using h
  | cons a cs ih =>
    intro cur hcur
    cases ha : isNewline a with
    | true =>
      cases cur with
      | nil => rw [scanStep_nl_nil _ _ ha]; exact ih [] (by simp)
      | cons d ds => rw [scanStep_nl_cons _ _ _ _ ha]; exact ih [] (by simp)
    | false =>
      rw [scanStep_other _ _ _ ha]
      refine ih (cur ++ [a]) ?_
      intro x hx
      rcases List.mem_append.mp hx with hx | hx
      · exact hcur x hx
      · simp at hx; subst hx; exact ha

/-- A pushed line is never empty: lines are only pushed from a nonempty
accumulator. -/
theorem scanStep_lines_ne_nil (cs : Str) : ∀ cur, ∀ l ∈ (scanStep cur cs).1, l ≠ [] := by
  induction cs with
  | nil => intro cur l hl; rw [scanStep_nil] at hl; simp at hl
  | cons a cs ih =>
    intro cur l hl
    cases ha : isNewline a with
    | true =>
      cases cur with
      | nil => rw [scanStep_nl_nil _ _ ha] at hl; exact ih [] l hl
      | cons d ds =>
        rw [scanStep_nl_cons _ _ _ _ ha] at hl
        rcases List.mem_cons.mp hl with rfl | hl
        · simp
        · exact ih [] l hl
    | false =>
      rw [scanStep_other _ _ _ ha] at hl
      exact ih (cur ++ [a]) l hl

/-- Writing the chunks one by one is the same as one write of the joined
text, for any newline-free starting remaining value. -/
theorem writeAll_eq_single (chunks : List Str) :
    ∀ rem, (∀ c ∈ rem, isNewline c = false) →
      writeAll rem chunks = LineDecoder.write rem chunks.flatten := by
  induction chunks with
  | nil =>
    intro rem h
    show ([], rem) = scanStep [] (rem ++ [].flatten)
    have h1 := scanStep_append_nlfree rem h [] []
    simp at h1
    simpa using h1.symm
  | cons ch chs ih =>
    intro rem h
    have hsnd : ∀ c ∈ (LineDecoder.write rem ch).2, isNewline c = false :=
      scanStep_snd_nlfree _ [] (by simp)
    show ((LineDecoder.write rem ch).1 ++ (writeAll (LineDecoder.write rem ch).2 chs).1,
          (writeAll (LineDecoder.write rem ch).2 chs).2) = _
    rw [ih _ hsnd]
    show _ = LineDecoder.write rem (ch ++ chs.flatten)
    unfold LineDecoder.write
    rw [← List.append_assoc]
    exact (scanStep_split (rem ++ ch) [] chs.flatten (by simp)).symm

/-- Claim C3: for every sequence of chunks, feeding them through write in
order and then calling end yields exactly the same ordered line sequence
and the same trailing partial line as processing the joined text in a
single write, and no produced line is empty (consecutive CR and LF
terminators never yield empty lines). -/
theorem lineDecoder_split_invariance (chunks : List Str) :
    decodeStream chunks = decodeStream [chunks.flatten] ∧
    ∀ l ∈ (decodeStream chunks).1, l ≠ [] := by
  have h1 : writeAll [] chunks = LineDecoder.write [] chunks.flatten :=
    writeAll_eq_single chunks [] (by simp)
  have h2 : writeAll [] [chunks.flatten] = LineDecoder.write [] chunks.flatten := by
    show ((LineDecoder.write [] chunks.flatten).1 ++ ([] : List Str),
          (LineDecoder.write [] chunks.flatten).2) = _
    simp
  constructor
  · unfold decodeStream
    rw [h1, h2]
  · unfold decodeStream
    intro l hl
    simp only [h1] at hl
    exact scanStep_lines_ne_nil _ [] l hl

/-- Claim C3 (witness): a CRLF terminator split across two chunks yields
the same decoded stream as the joined text. -/
theorem lineDecoder_split_invariance_witness :
    decodeStream [str "a\r", str "\nb"] = decodeStream [str "a\r\nb"] :=
  (lineDecoder_split_invariance [str "a\r", str "\nb"]).1



/-! ## Validation matcher theorems -/

/-- Claim C8 (counterexample): a line in which the diagnostic shape
appears only as an interior substring, with extra leading text, does not
match the exact shape of the spec, yet processLine still yields a
diagnostic because MatchExpression is unanchored; the line is not
silently dropped. -/
theorem interior_shape_match_counterexample :
    specExactShapeMatch (str "xx Parse error: bad in test.lc on line 2") = false ∧
    processLine (str "xx Parse error: bad in test.lc on line 2") =
      some { startLine := 1, startChar := 0, message := str "bad" } := by
  exact ⟨rfl, rfl⟩

theorem findSome?_eq_none_forall {α β : Type} (f : α → Option β) (l : List α)
    (h : l.findSome? f = none) : ∀ x ∈ l, f x = none := by
  induction l with
  | nil => simp
  | cons a l ih =>
    intro x hx
    rw [List.findSome?_cons] at h
    cases hfa : f a with
    | some b => rw [hfa] at h; exact absurd h (by simp)
    | none =>
      rw [hfa] at h
      rcases List.mem_cons.mp hx with rfl | hx
      · exact hfa
      · exact ih h x hx

/-- Claim C8 (amended): the regex is unanchored, so a line yields a
diagnostic whenever the diagnostic shape occurs anywhere in it; in
particular any amount of extra leading text before an occurrence of the
shape still yields a diagnostic. -/
theorem interior_shape_match_yields_diagnostic (pre : Str) :
    processLine (pre ++ str "Parse error: bad in test.lc on line 2") ≠ none := by
  intro hnone
  have hj : matchExpressionSearch (pre ++ str "Parse error: bad in test.lc on line 2") = none := by
    unfold processLine at hnone
    cases hm : matchExpressionSearch (pre ++ str "Parse error: bad in test.lc on line 2") with
    | none => rfl
    | some v =>
      rw [hm] at hnone
      rcases v with ⟨m, f, d⟩
      simp at hnone
  have hall := findSome?_eq_none_forall _ _ hj
  have hmem : pre.length ∈
      List.range ((pre ++ str "Parse error: bad in test.lc on line 2").length + 1) := by
    rw [List.mem_range, List.length_append]
    omega
  have h0 := hall _ hmem
  rw [List.drop_left] at h0
  exact absurd h0 (by decide)

/-- Claim C8 (witness): a concrete line with extra leading text still
yields a diagnostic. -/
theorem interior_shape_match_yields_diagnostic_witness :
    processLine (str "zz " ++ str "Parse error: bad in test.lc on line 2") ≠ none :=
  interior_shape_match_yields_diagnostic (str "zz ")

/-- Claim C9 (amended): a settings reload clears a set pause exactly when
the configured executable changed; when the reloaded executable equals
the previous one, the provider stays paused and subsequent triggers stay
suppressed. -/
theorem reload_clears_pause_iff_changed (oldE newE : Option Str) :
    (loadConfigurationPause { pauseValidation := true, executable := oldE }
        newE).pauseValidation = false ↔ oldE ≠ newE := by
  simp [loadConfigurationPause]

/-- Claim C9 (witness): a reload that changes the executable clears the
pause. -/
theorem reload_clears_pause_iff_changed_witness :
    (loadConfigurationPause { pauseValidation := true, executable := some (str "/a") }
        (some (str "/b"))).pauseValidation = false :=
  (reload_clears_pause_iff_changed (some (str "/a")) (some (str "/b"))).mpr (by decide)



/-! ## Scanner pattern lemmas -/

theorem startsWithTok_eq {p t : Str} (h : startsWithTok p t = true) :
    t.take p.length = p := by
  simpa [startsWithTok] using h

theorem startsWithTok_take {p t : Str} (h : startsWithTok p t = true)
    {n : Nat} (hn : n ≤ p.length) : t.take n = p.take n := by
  have h1 := startsWithTok_eq h
  calc t.take n = (t.take p.length).take n := by
        rw [List.take_take, Nat.min_eq_left hn]
    _ = p.take n := by rw [h1]

theorem startsWithTok_conflict {p q t : Str} (hp : startsWithTok p t = true)
    (hq : startsWithTok q t = true) (hlen : p.length ≤ q.length) :
    q.take p.length = p := by
  have h1 := startsWithTok_eq hp
  have h2 := startsWithTok_take hq hlen
  rw [← h2, h1]

/-- Two literals that disagree on their common prefix cannot both match at
the start of the same text. -/
theorem startsWithTok_disjoint {p t : Str} (h : startsWithTok p t = true)
    {q : Str} (hlen : p.length ≤ q.length) (hne : q.take p.length ≠ p) :
    startsWithTok q t = false := by
  cases hq : startsWithTok q t with
  | false => rfl
  | true => exact absurd (startsWithTok_conflict h hq hlen) hne

/-- A line whose first word is end has no leading whitespace to drop. -/
theorem dropWS_eq_of_end {s : Str} (h : startsWithTok (str "end") s = true) :
    dropWS s = s := by
  have h3 := startsWithTok_eq h
  cases s with
  | nil => exact absurd h3 (by decide)
  | cons c cs =>
    have h4 : c :: cs.take 2 = str "end" := h3
    have hc : c = 'e' := by injection h4
    subst hc
    simp [dropWS, List.dropWhile_cons, show isWS 'e' = false from by decide]

theorem matchPrivateOpen_false_of_handlerOpen {s : Str}
    (h : matchHandlerOpen s = true) : matchPrivateOpen s = false := by
  have h1 : startsWithTok (str "handler") (dropWS s) = true := by
    simp only [matchHandlerOpen, Bool.and_eq_true] at h
    exact h.1
  simp only [matchPrivateOpen]
  rw [startsWithTok_disjoint h1 (q := str "private") (by decide) (by decide)]
  simp

theorem matchEndHandlerNoWS_false_of_handlerOpen {s : Str}
    (h : matchHandlerOpen s = true) : matchEndHandlerNoWS s = false := by
  have h1 : startsWithTok (str "handler") (dropWS s) = true := by
    simp only [matchHandlerOpen, Bool.and_eq_true] at h
    exact h.1
  cases he : startsWithTok (str "end") s with
  | false =>
    simp only [matchEndHandlerNoWS, endHandlerShape]
    rw [he]
    simp
  | true =>
    have hds := dropWS_eq_of_end he
    rw [hds] at h1
    have h2 := startsWithTok_disjoint he (q := str "handler") (by decide) (by decide)
    rw [h1] at h2
    exact absurd h2 (by decide)

theorem matchVariableDecl_false_of_handlerOpen {s : Str}
    (h : matchHandlerOpen s = true) : matchVariableDecl s = false := by
  have h1 : startsWithTok (str "handler") (dropWS s) = true := by
    simp only [matchHandlerOpen, Bool.and_eq_true] at h
    exact h.1
  simp only [matchVariableDecl, variableTail]
  rw [startsWithTok_disjoint h1 (q := str "private") (by decide) (by decide),
      startsWithTok_disjoint h1 (q := str "variable") (by decide) (by decide)]
  simp

theorem matchHandlerOpen_false_of_privateOpen {s : Str}
    (h : matchPrivateOpen s = true) : matchHandlerOpen s = false := by
  have h1 : startsWithTok (str "private") (dropWS s) = true := by
    simp only [matchPrivateOpen, Bool.and_eq_true] at h
    exact h.1.1
  simp only [matchHandlerOpen]
  rw [startsWithTok_disjoint h1 (q := str "handler") (by decide) (by decide)]
  simp

theorem matchEndHandler_false_of_privateOpen {s : Str}
    (h : matchPrivateOpen s = true) : matchEndHandler s = false := by
  have h1 : startsWithTok (str "private") (dropWS s) = true := by
    simp only [matchPrivateOpen, Bool.and_eq_true] at h
    exact h.1.1
  cases he : startsWithTok (str "end") (dropWS s) with
  | false =>
    simp only [matchEndHandler, endHandlerShape]
    rw [he]
    simp
  | true =>
    have h2 := startsWithTok_disjoint he (q := str "private") (by decide) (by decide)
    rw [h1] at h2
    exact absurd h2 (by decide)

theorem matchVariableDecl_false_of_privateOpen {s : Str}
    (h : matchPrivateOpen s = true) : matchVariableDecl s = false := by
  simp only [matchPrivateOpen, Bool.and_eq_true] at h
  have h1 : startsWithTok (str "private") (dropWS s) = true := h.1.1
  have h2 : startsWithTok (str "handler") (((dropWS s).drop 7).dropWhile isWS) = true :=
    h.2.1.1
  simp only [matchVariableDecl, variableTail]
  rw [startsWithTok_disjoint h2 (q := str "variable") (by decide) (by decide),
      startsWithTok_disjoint h1 (q := str "variable") (by decide) (by decide)]
  simp

/-- The anchored end-handler pattern only matches lines also matched by
the permissive one. -/
theorem matchEndHandler_of_noWS {s : Str} (h : matchEndHandlerNoWS s = true) :
    matchEndHandler s = true := by
  have he : startsWithTok (str "end") s = true := by
    simp only [matchEndHandlerNoWS, endHandlerShape, Bool.and_eq_true] at h
    exact h.1.1
  unfold matchEndHandler
  rw [dropWS_eq_of_end he]
  exact h



/-! ## Scanner branch and loop lemmas -/

theorem handlerBranch1_open (st : ScanState) (i : Nat) (lt : Str) (tk : List Str)
    (h : matchHandlerOpen lt = true) :
    (handlerBranch1 st i lt tk).symbols = st.symbols ∧
    (handlerBranch1 st i lt tk).insideHandler = true := by
  simp [handlerBranch1, h]

theorem handlerBranch1_skip (st : ScanState) (i : Nat) (lt : Str) (tk : List Str)
    (h1 : matchHandlerOpen lt = false) (h2 : matchEndHandler lt = false) :
    handlerBranch1 st i lt tk = st := by
  simp [handlerBranch1, h1, h2]

theorem handlerBranch2_open (st : ScanState) (i : Nat) (lt : Str) (tk : List Str)
    (h : matchPrivateOpen lt = true) :
    (handlerBranch2 st i lt tk).symbols = st.symbols ∧
    (handlerBranch2 st i lt tk).insideHandler = true := by
  simp [handlerBranch2, h]

theorem handlerBranch2_skip (st : ScanState) (i : Nat) (lt : Str) (tk : List Str)
    (h1 : matchPrivateOpen lt = false) (h2 : matchEndHandlerNoWS lt = false) :
    handlerBranch2 st i lt tk = st := by
  simp [handlerBranch2, h1, h2]

theorem variableBranch_skip (st : ScanState) (i : Nat) (lt : Str) (tk : List Str)
    (h : matchVariableDecl lt = false) :
    variableBranch st i lt tk = st := by
  simp [variableBranch, h]

theorem variableBranch_inside (st : ScanState) (i : Nat) (lt : Str) (tk : List Str)
    (h : st.insideHandler = true) :
    (variableBranch st i lt tk).symbols = st.symbols ∧
    (variableBranch st i lt tk).insideHandler = true := by
  unfold variableBranch
  cases hv : matchVariableDecl lt with
  | false => exact ⟨rfl, h⟩
  | true =>
    cases hbc : st.insideBlockcomment with
    | false => simp [h, hbc]
    | true => simp [h, hbc]

/-- A handler-opening line (either branch) pushes nothing to the
top-level symbols and leaves the scan inside an open handler scope. -/
theorem scanLineStep_open (st : ScanState) (i : Nat) (l : Str)
    (hopen : opensHandlerLine l = true) :
    (scanLineStep st i l).symbols = st.symbols ∧
    (scanLineStep st i l).insideHandler = true := by
  simp only [scanLineStep]
  rcases Bool.or_eq_true _ _ |>.mp (by simpa [opensHandlerLine] using hopen) with h | h
  · have hb1 := handlerBranch1_open st i (spaceSpecials l) (tokenize (spaceSpecials l)) h
    rw [handlerBranch2_skip _ _ _ _ (matchPrivateOpen_false_of_handlerOpen h)
          (matchEndHandlerNoWS_false_of_handlerOpen h),
        variableBranch_skip _ _ _ _ (matchVariableDecl_false_of_handlerOpen h)]
    exact hb1
  · rw [handlerBranch1_skip st i (spaceSpecials l) (tokenize (spaceSpecials l))
          (matchHandlerOpen_false_of_privateOpen h)
          (matchEndHandler_false_of_privateOpen h),
        variableBranch_skip _ _ _ _ (matchVariableDecl_false_of_privateOpen h)]
    exact handlerBranch2_open st i _ _ h

/-- While a handler scope is open, a line that does not match the
end-handler pattern pushes nothing to the top-level symbols and keeps the
scope open. -/
theorem scanLineStep_keeps (st : ScanState) (i : Nat) (l : Str)
    (hin : st.insideHandler = true)
    (hend : endsHandlerLine l = false) :
    (scanLineStep st i l).symbols = st.symbols ∧
    (scanLineStep st i l).insideHandler = true := by
  have hend1 : matchEndHandler (spaceSpecials l) = false := hend
  have hend2 : matchEndHandlerNoWS (spaceSpecials l) = false := by
    cases h2 : matchEndHandlerNoWS (spaceSpecials l) with
    | false => rfl
    | true => rw [matchEndHandler_of_noWS h2] at hend1; cases hend1
  simp only [scanLineStep]
  have hb1 : (handlerBranch1 st i (spaceSpecials l) (tokenize (spaceSpecials l))).symbols
        = st.symbols ∧
      (handlerBranch1 st i (spaceSpecials l) (tokenize (spaceSpecials l))).insideHandler
        = true := by
    cases h1 : matchHandlerOpen (spaceSpecials l) with
    | false =>
      rw [handlerBranch1_skip st i (spaceSpecials l) (tokenize (spaceSpecials l)) h1 hend1]
      exact ⟨rfl, hin⟩
    | true => exact handlerBranch1_open st i (spaceSpecials l) (tokenize (spaceSpecials l)) h1
  have hb2 : (handlerBranch2 (handlerBranch1 st i (spaceSpecials l)
          (tokenize (spaceSpecials l))) i (spaceSpecials l)
          (tokenize (spaceSpecials l))).symbols = st.symbols ∧
      (handlerBranch2 (handlerBranch1 st i (spaceSpecials l)
          (tokenize (spaceSpecials l))) i (spaceSpecials l)
          (tokenize (spaceSpecials l))).insideHandler = true := by
    cases h2 : matchPrivateOpen (spaceSpecials l) with
    | false =>
      rw [handlerBranch2_skip _ i (spaceSpecials l) (tokenize (spaceSpecials l)) h2 hend2]
      exact hb1
    | true =>
      have ho := handlerBranch2_open (handlerBranch1 st i (spaceSpecials l)
        (tokenize (spaceSpecials l))) i (spaceSpecials l) (tokenize (spaceSpecials l)) h2
      exact ⟨ho.1.trans hb1.1, ho.2⟩
  have hb3 := variableBranch_inside (handlerBranch2 (handlerBranch1 st i (spaceSpecials l)
    (tokenize (spaceSpecials l))) i (spaceSpecials l) (tokenize (spaceSpecials l)))
    i (spaceSpecials l) (tokenize (spaceSpecials l)) hb2.2
  exact ⟨hb3.1.trans hb2.1, hb3.2⟩

theorem scanLoop_cons (st : ScanState) (i : Nat) (l : Str) (ls : List Str) :
    scanLoop st i (l :: ls) = scanLoop (scanLineStep st i l) (i + 1) ls := rfl

theorem scanLoop_append (xs : List Str) : ∀ (ys : List Str) (st : ScanState) (i : Nat),
    scanLoop st i (xs ++ ys) = scanLoop (scanLoop st i xs) (i + xs.length) ys := by
  induction xs with
  | nil => intro ys st i; simp [scanLoop]
  | cons x xs ih =>
    intro ys st i
    rw [List.cons_append, scanLoop_cons, scanLoop_cons, ih]
    have h : i + 1 + xs.length = i + (x :: xs).length := by
      rw [List.length_cons]; omega
    rw [h]

/-- While a handler scope is open, a run of lines containing no
end-handler line leaves the top-level symbols unchanged. -/
theorem scanLoop_keeps (ls : List Str) : ∀ (st : ScanState) (i : Nat),
    st.insideHandler = true →
    (∀ l ∈ ls, endsHandlerLine l = false) →
    (scanLoop st i ls).symbols = st.symbols := by
  induction ls with
  | nil => intro st i _ _; rfl
  | cons l ls ih =>
    intro st i hin hall
    have h1 := scanLineStep_keeps st i l hin (hall l (by simp))
    rw [scanLoop_cons, ih _ _ h1.2 (fun x hx => hall x (by simp [hx]))]
    exact h1.1

/-- Claim C10: a handler-opening line that is never followed by an
end-handler line contributes no symbol to the scan result, and the
Variable children attached to it while it was open are absent as well:
the scan of the whole document equals the scan of the prefix before the
opening line. -/
theorem unclosed_handler_contributes_nothing
    (pre suf : List Str) (openLine : Str)
    (hopen : opensHandlerLine openLine = true)
    (hsuf : ∀ l ∈ suf, endsHandlerLine l = false) :
    scanCore (pre ++ openLine :: suf) = scanCore pre := by
  unfold scanCore
  rw [show pre ++ openLine :: suf = (pre ++ [openLine]) ++ suf from by simp,
      scanLoop_append, scanLoop_append]
  have hstep := scanLineStep_open (scanLoop initState 0 pre) (0 + pre.length) openLine hopen
  rw [show scanLoop (scanLoop initState 0 pre) (0 + pre.length) [openLine]
        = scanLineStep (scanLoop initState 0 pre) (0 + pre.length) openLine from rfl]
  rw [scanLoop_keeps suf _ _ hstep.2 hsuf]
  exact hstep.1

/-- Claim C10 (witness): a concrete document whose handler h is never
closed scans to the same symbols as the prefix before it; the variable v
attached inside the open handler is absent. -/
theorem unclosed_handler_contributes_nothing_witness :
    opensHandlerLine (str "handler h") = true ∧
    (∀ l ∈ [str "variable v"], endsHandlerLine l = false) ∧
    scanCore ([str "variable a"] ++ (str "handler h") :: [str "variable v"]) =
      scanCore [str "variable a"] :=
  ⟨by decide, by decide,
   unclosed_handler_contributes_nothing [str "variable a"] [str "variable v"]
     (str "handler h") (by decide) (by decide)⟩

end Livecodescript
